import Mathlib

/-!
Verification development for the resilient real-time connection client
(`WebSocketService` in `src/frontend/src/hooks/useRealTimeData.ts`).

The service is shallowly embedded as a state machine: the service object's
fields become the fields of `St`, browser WebSocket objects become entries
of `St.socks` indexed by allocation order, JavaScript timers become boolean
"armed" flags plus a count of pending reconnect timeouts, and every handler
or public method becomes a Lean function `St → St × List Action`, where an
`Action` records an observable effect (a frame transmitted on a socket, or
a subscriber callback invoked with a payload).  Environment occurrences
(socket lifecycle events, timer expiries) and operator calls are the events
`Ev`; `step` runs one event and `run` a sequence.
-/

namespace FLIDS

/-- Browser WebSocket `readyState` values (CONNECTING, OPEN, CLOSING, CLOSED). -/
inductive ReadyState
  | connecting
  | opened
  | closing
  | closed
deriving DecidableEq, Repr

/-- The service's `WSState` union:
`"idle" | "connecting" | "connected" | "reconnecting" | "disconnected"`. -/
inductive WSState
  | idle
  | connecting
  | connected
  | reconnecting
  | disconnected
deriving DecidableEq, Repr

/-- A parsed inbound JSON message: its optional `type` field, its optional
`status` field (read by the `waitForConnection` handler), and the rest of the
payload kept opaque. -/
structure InMsg where
  msgType : Option String
  status : Option String
  rest : String
deriving DecidableEq, Repr

/-- A payload handed to a listener callback: either a `connection`
status object, a parsed inbound message, or the `{event, data}` wrapper the
wildcard channel receives. -/
inductive Payload
  | conn (status : String) (reason : Option String) (error : Option String)
  | msg (m : InMsg)
  | star (event : String) (inner : Payload)
deriving DecidableEq, Repr

/-- A frame written to a socket: a serialized `{type, data}` envelope from
`send`/`flushQueue`, or the heartbeat `{type: "ping", ts}` probe. -/
inductive OutMsg
  | env (ty : String) (data : String)
  | ping (ts : Nat)
deriving DecidableEq, Repr

/-- Listener identities. -/
abbrev ListenerId := Nat

/-- An observable effect of a step. -/
inductive Action
  | transmit (sockId : Nat) (m : OutMsg)
  | invoke (cb : ListenerId) (p : Payload)
deriving DecidableEq, Repr

def isTransmitAct : Action → Bool
  | .transmit _ _ => true
  | .invoke _ _ => false

def isInvokeAct : Action → Bool
  | .transmit _ _ => false
  | .invoke _ _ => true

/-- The listener registry `Map<string, Set<Listener>>`, as an association
list from channel name to the insertion-ordered set of listener ids. -/
abbrev Listeners := List (String × List ListenerId)

/-- `this.listeners.get(e)` (with `has` = `isSome`). -/
def getSet (ls : Listeners) (e : String) : Option (List ListenerId) :=
  (ls.find? (fun p => p.1 == e)).map Prod.snd

/-- `on(event, cb)`: create the entry if absent, then `Set.add` (no
duplicate insertion). -/
def onListen (ls : Listeners) (e : String) (cb : ListenerId) : Listeners :=
  match getSet ls e with
  | none => ls ++ [(e, [cb])]
  | some _ =>
      ls.map (fun p =>
        if p.1 == e then (p.1, if p.2.contains cb then p.2 else p.2 ++ [cb]) else p)

/-- `off(event, cb)`: delete from the set; drop the entry if it becomes
empty. -/
def offListen (ls : Listeners) (e : String) (cb : ListenerId) : Listeners :=
  match getSet ls e with
  | none => ls
  | some set =>
      let set2 := set.filter (fun c => c != cb)
      if set2.isEmpty then ls.filter (fun p => p.1 != e)
      else ls.map (fun p => if p.1 == e then (p.1, set2) else p)

/-- `emit(event, data)`: invoke the channel's listeners with `data`, then
the `"*"` listeners with the `{event, data}` wrapper. -/
def emitActs (ls : Listeners) (event : String) (d : Payload) : List Action :=
  (match getSet ls event with
   | some set => set.map (fun cb => Action.invoke cb d)
   | none => []) ++
  (match getSet ls "*" with
   | some set => set.map (fun cb => Action.invoke cb (Payload.star event d))
   | none => [])

/-- Total number of registered listener callbacks. -/
def listenerCount (ls : Listeners) : Nat :=
  (ls.map (fun p => p.2.length)).sum

/-- One allocated browser WebSocket: its `readyState` and whether
`setupEventHandlers` has attached the service's callbacks to it.  Nothing in
the source ever detaches callbacks, and `attached` is never reset. -/
structure Sock where
  ready : ReadyState
  attached : Bool
deriving DecidableEq, Repr

/-- The `WebSocketService` instance state plus its environment: allocated
sockets (`socks`, indexed by creation order) and the number of pending
reconnect `setTimeout`s. -/
structure St where
  socket : Option Nat
  listeners : Listeners
  reconnectAttempts : Nat
  maxReconnectAttempts : Nat
  manualClose : Bool
  heartbeatTimer : Bool
  pongTimeout : Bool
  messageQueue : List (String × String)
  maxQueueSize : Nat
  state : WSState
  lastConnectedAt : Option Nat
  lastDisconnectedAt : Option Nat
  socks : List Sock
  pendingReconnects : Nat
deriving DecidableEq, Repr

/-- The freshly constructed service (field initializers of the class). -/
def initSt : St :=
  { socket := none
    listeners := []
    reconnectAttempts := 0
    maxReconnectAttempts := 8
    manualClose := false
    heartbeatTimer := false
    pongTimeout := false
    messageQueue := []
    maxQueueSize := 100
    state := .idle
    lastConnectedAt := none
    lastDisconnectedAt := none
    socks := []
    pendingReconnects := 0 }

/-- `readyState` of socket `i` (absent sockets read as CLOSED). -/
def sockReady (s : St) (i : Nat) : ReadyState :=
  match s.socks[i]? with
  | some sk => sk.ready
  | none => .closed

/-- The guard `this.socket && this.socket.readyState === WebSocket.OPEN`. -/
def currentSockOpen (s : St) : Bool :=
  match s.socket with
  | some i => sockReady s i == .opened
  | none => false

/-- `clearHeartbeat()`: cancel both heartbeat timers. -/
def clearHeartbeat (s : St) : St :=
  { s with heartbeatTimer := false, pongTimeout := false }

/-- `startHeartbeat()` up to the point of arming the probe interval (the
interval body itself runs as the `heartbeatTick` event). -/
def startHeartbeat (s : St) : St :=
  { clearHeartbeat s with heartbeatTimer := true }

/-- `socket.close()` on socket `i`: a CONNECTING or OPEN socket moves to
CLOSING (the close event arrives later as a `sockClosed` occurrence). -/
def closeSock (s : St) (i : Nat) : St :=
  match s.socks[i]? with
  | some sk =>
      let r := if sk.ready == .closed then ReadyState.closed else ReadyState.closing
      { s with socks := s.socks.set i { sk with ready := r } }
  | none => s

/-- Queue insertion in `send`: `if (length >= maxQueueSize) shift(); push(m)`. -/
def enqueue (maxQ : Nat) (q : List (String × String)) (m : String × String) :
    List (String × String) :=
  (if maxQ ≤ q.length then q.drop 1 else q) ++ [m]

/-- `send(event, data)`. -/
def send (s : St) (event data : String) : St × List Action :=
  match s.socket with
  | some i =>
      if sockReady s i == .opened then
        (s, [Action.transmit i (OutMsg.env event data)])
      else
        ({ s with messageQueue := enqueue s.maxQueueSize s.messageQueue (event, data) }, [])
  | none =>
      ({ s with messageQueue := enqueue s.maxQueueSize s.messageQueue (event, data) }, [])

/-- `flushQueue()`. -/
def flushQueue (s : St) : St × List Action :=
  if s.messageQueue.isEmpty then (s, [])
  else
    match s.socket with
    | some i =>
        if sockReady s i == .opened then
          ({ s with messageQueue := [] },
           s.messageQueue.map (fun m => Action.transmit i (OutMsg.env m.1 m.2)))
        else (s, [])
    | none => (s, [])

/-- `setupEventHandlers()`: attach the service's callbacks to the current
socket (and to it only — previously superseded sockets keep theirs). -/
def setupEventHandlers (s : St) : St :=
  match s.socket with
  | none => s
  | some i =>
      match s.socks[i]? with
      | some sk => { s with socks := s.socks.set i { sk with attached := true } }
      | none => s

/-- `connect()`: return if the current socket is OPEN; otherwise clear
`manualClose`, move to `connecting`, construct a new WebSocket and attach
handlers to it. -/
def connect (s : St) : St × List Action :=
  if currentSockOpen s then (s, [])
  else
    let s1 := { s with manualClose := false, state := WSState.connecting }
    let id := s1.socks.length
    let s2 := { s1 with
                  socks := s1.socks ++ [{ ready := .connecting, attached := false }],
                  socket := some id }
    (setupEventHandlers s2, [])

/-- `disconnect()`: set `manualClose`, cancel heartbeat timers, close and
drop the socket reference, clear every listener registration, and set state
`disconnected`. -/
def disconnect (s : St) : St :=
  let s1 := clearHeartbeat { s with manualClose := true }
  let s2 :=
    match s1.socket with
    | some i => { closeSock s1 i with socket := none }
    | none => s1
  { s2 with listeners := [], state := WSState.disconnected }

/-- `forceReconnect()`: `disconnect()` then `connect()`. -/
def forceReconnect (s : St) : St × List Action :=
  connect (disconnect s)

/-- `handleReconnect()`: at the ceiling, emit `{status: "failed"}` and stop;
otherwise bump the counter, move to `reconnecting` and schedule a delayed
`connect` (the delay amount is the pure `reconnectDelay` below). -/
def handleReconnect (s : St) : St × List Action :=
  if s.maxReconnectAttempts ≤ s.reconnectAttempts then
    (s, emitActs s.listeners "connection" (Payload.conn "failed" none none))
  else
    ({ s with
        reconnectAttempts := s.reconnectAttempts + 1,
        state := WSState.reconnecting,
        pendingReconnects := s.pendingReconnects + 1 }, [])

/-- The `onopen` handler body. -/
def onOpen (s : St) (now : Nat) : St × List Action :=
  let s1 := { s with
                state := WSState.connected,
                reconnectAttempts := 0,
                lastConnectedAt := some now }
  let acts1 := emitActs s1.listeners "connection" (Payload.conn "connected" none none)
  let s2 := startHeartbeat s1
  let p := flushQueue s2
  (p.1, acts1 ++ p.2)

/-- The `onclose` handler body. -/
def onClose (s : St) (reason : Option String) (now : Nat) : St × List Action :=
  let s1 := clearHeartbeat { s with state := WSState.disconnected }
  let s2 := { s1 with lastDisconnectedAt := some now }
  let acts1 := emitActs s2.listeners "connection" (Payload.conn "disconnected" reason none)
  if s2.manualClose then (s2, acts1)
  else
    let p := handleReconnect s2
    (p.1, acts1 ++ p.2)

/-- The `onerror` handler body. -/
def onError (s : St) (err : String) : St × List Action :=
  (s, emitActs s.listeners "connection" (Payload.conn "error" none (some err)))

/-- `msg.type || "message"` — JavaScript `||` also replaces the empty
string. -/
def effType (m : InMsg) : String :=
  match m.msgType with
  | none => "message"
  | some t => if t == "" then "message" else t

/-- The `onmessage` handler body (`none` models a frame `JSON.parse`
rejects, which the catch block ignores). -/
def onMessage (s : St) (m : Option InMsg) : St × List Action :=
  match m with
  | none => (s, [])
  | some msg =>
      let ty := effType msg
      if ty == "pong" then
        ({ s with pongTimeout := false }, [])
      else
        (s, emitActs s.listeners ty (Payload.msg msg))

/-- The heartbeat interval body: on an OPEN current socket, send a ping and
(re)arm the pong deadline. -/
def heartbeatBody (s : St) (now : Nat) : St × List Action :=
  match s.socket with
  | some i =>
      if sockReady s i == .opened then
        ({ s with pongTimeout := true }, [Action.transmit i (OutMsg.ping now)])
      else (s, [])
  | none => (s, [])

/-- The pong-deadline body: `this.socket?.close()`. -/
def pongDeadlineBody (s : St) : St :=
  match s.socket with
  | some i => closeSock s i
  | none => s

/-- Operator calls, socket lifecycle occurrences and timer expiries. -/
inductive Ev
  | opConnect
  | opDisconnect
  | opForceReconnect
  | opSend (ty : String) (data : String)
  | opOn (channel : String) (cb : ListenerId)
  | opOff (channel : String) (cb : ListenerId)
  | sockOpened (i : Nat) (now : Nat)
  | sockClosed (i : Nat) (reason : Option String) (now : Nat)
  | sockErrored (i : Nat) (err : String)
  | sockMessage (i : Nat) (m : Option InMsg)
  | reconnectTimer
  | heartbeatTick (now : Nat)
  | pongDeadline
deriving DecidableEq, Repr

/-- One event.  A socket occurrence first updates the socket's
`readyState`, then runs the service's handler body — but only if the
service's callbacks are attached to that socket; whether the socket is the
service's *current* one is deliberately not checked, because the source
handlers never check it either. -/
def step (s : St) (e : Ev) : St × List Action :=
  match e with
  | .opConnect => connect s
  | .opDisconnect => (disconnect s, [])
  | .opForceReconnect => forceReconnect s
  | .opSend ty d => send s ty d
  | .opOn ch cb => ({ s with listeners := onListen s.listeners ch cb }, [])
  | .opOff ch cb => ({ s with listeners := offListen s.listeners ch cb }, [])
  | .sockOpened i now =>
      match s.socks[i]? with
      | some sk =>
          if sk.ready == .connecting then
            let s1 := { s with socks := s.socks.set i { sk with ready := .opened } }
            if sk.attached then onOpen s1 now else (s1, [])
          else (s, [])
      | none => (s, [])
  | .sockClosed i reason now =>
      match s.socks[i]? with
      | some sk =>
          if sk.ready == .closed then (s, [])
          else
            let s1 := { s with socks := s.socks.set i { sk with ready := .closed } }
            if sk.attached then onClose s1 reason now else (s1, [])
      | none => (s, [])
  | .sockErrored i err =>
      match s.socks[i]? with
      | some sk =>
          if sk.ready == .closed then (s, [])
          else if sk.attached then onError s err else (s, [])
      | none => (s, [])
  | .sockMessage i m =>
      match s.socks[i]? with
      | some sk =>
          if sk.ready == .opened && sk.attached then onMessage s m else (s, [])
      | none => (s, [])
  | .reconnectTimer =>
      if s.pendingReconnects == 0 then (s, [])
      else connect { s with pendingReconnects := s.pendingReconnects - 1 }
  | .heartbeatTick now =>
      if s.heartbeatTimer then heartbeatBody s now else (s, [])
  | .pongDeadline =>
      if s.pongTimeout then (pongDeadlineBody { s with pongTimeout := false }, [])
      else (s, [])

/-- Run a sequence of events, accumulating the observable actions. -/
def run : St → List Ev → St × List Action
  | s, [] => (s, [])
  | s, e :: evs =>
      let p := step s e
      let q := run p.1 evs
      (q.1, p.2 ++ q.2)

/-! ### `waitForConnection` -/

/-- The resolution cell, timeout timer and handler identity of one
`waitForConnection(timeoutMs)` promise. -/
structure WaitSt where
  resolved : Option Bool
  timerActive : Bool
  cb : ListenerId
deriving DecidableEq, Repr

/-- The synchronous part of `waitForConnection`: resolve `true` at once if
`isConnected()`, else arm the timeout and register the handler on the
`connection` channel. -/
def wfcStart (s : St) (cb : ListenerId) : St × WaitSt :=
  if s.state == WSState.connected then
    (s, { resolved := some true, timerActive := false, cb })
  else
    ({ s with listeners := onListen s.listeners "connection" cb },
     { resolved := none, timerActive := true, cb })

/-- The timeout callback (it runs only if the timer was not cleared):
deregister the handler and resolve `false`. -/
def wfcTimeout (s : St) (w : WaitSt) : St × WaitSt :=
  if w.timerActive then
    ({ s with listeners := offListen s.listeners "connection" w.cb },
     { w with timerActive := false, resolved := some false })
  else (s, w)

/-- The handler body, run when the registered callback is invoked with
payload `p`: on `data.status === "connected"`, clear the timer, deregister
and resolve `true`. -/
def wfcOnEvent (s : St) (w : WaitSt) (p : Payload) : St × WaitSt :=
  let statusIsConnected :=
    match p with
    | .conn st _ _ => st == "connected"
    | .msg m => m.status == some "connected"
    | .star _ _ => false
  if statusIsConnected then
    ({ s with listeners := offListen s.listeners "connection" w.cb },
     { w with timerActive := false, resolved := some true })
  else (s, w)

/-! ### The reconnect delay computation (`handleReconnect`, lines 294–297) -/

/-- `baseReconnectDelay = 1000`. -/
def baseReconnectDelay : ℚ := 1000

/-- `delay = baseReconnectDelay * 2^(reconnectAttempts - 1) + jitter` — the
source applies no cap. -/
def reconnectDelay (reconnectAttempts : ℕ) (jitter : ℚ) : ℚ :=
  baseReconnectDelay * 2 ^ (reconnectAttempts - 1) + jitter

/-- `jitter = 300 + Math.random() * 300` with `Math.random() ∈ [0, 1)`. -/
def jitterInRange (j : ℚ) : Prop := 300 ≤ j ∧ j < 600

/-- Modelled from the spec: the Reconnection Scheduler delay the spec
describes, `min(base * 2^(attempts-1) + jitter, cap)` — stated for
comparison with the source's `reconnectDelay`, which the code computes
without any cap. -/
def specCappedDelay (base : ℚ) (attempts : ℕ) (jitter cap : ℚ) : ℚ :=
  min (base * 2 ^ (attempts - 1) + jitter) cap

/-- A service that has exhausted its retry ceiling and gone quiescent: no
pending reconnect timer, heartbeat timers disarmed, state `disconnected`,
attempt counter at or above the ceiling, and every allocated socket
CLOSED. -/
def Quiet (s : St) : Prop :=
  s.pendingReconnects = 0 ∧ s.heartbeatTimer = false ∧ s.pongTimeout = false ∧
  s.state = WSState.disconnected ∧ s.maxReconnectAttempts ≤ s.reconnectAttempts ∧
  ∀ sk ∈ s.socks, sk.ready = ReadyState.closed

/-- Whether an event is an operator `open()`-class call
(`connect`/`forceReconnect`). -/
def isOperatorOpen : Ev → Bool
  | .opConnect => true
  | .opForceReconnect => true
  | _ => false

/-- Whether an event is an `on(channel, cb)` registration. -/
def isOpOn : Ev → Bool
  | .opOn _ _ => true
  | _ => false

/-! ## Claims -/

/-- C1 (counterexample): the code's reconnect delay is not
`min(base * 2^(attempts-1) + jitter, cap)` — no cap is ever applied.  At the
sixth retry with the spec's configured cap 30000 (scenario B) and an
in-range jitter of 300, the code computes 32300, which exceeds the cap, and
at the eighth retry the computed delay is not strictly below
`cap + max-jitter = 30600` either. -/
theorem c1_counterexample :
    jitterInRange 300 ∧
    reconnectDelay 6 300 ≠ specCappedDelay baseReconnectDelay 6 300 30000 ∧
    ¬ reconnectDelay 8 300 < 30000 + 600 := by
  refine ⟨⟨by norm_num, by norm_num⟩, ?_, ?_⟩ <;>
    simp only [reconnectDelay, specCappedDelay, baseReconnectDelay] <;> norm_num

/-- C1 (amended): the Reconnection Scheduler applies no cap: the delay for
retry `attempts` (1-indexed) is exactly `base * 2^(attempts-1) + jitter`
with `jitter ∈ [300, 600)`.  Over successive failed opens the delay is
strictly increasing at every step, and — because at most 8 retries are ever
scheduled — every computed delay is below `base * 2^7 + 600`. -/
theorem c1_amended_backoff (a : ℕ) (ha : 1 ≤ a) (j j' : ℚ)
    (hj : jitterInRange j) (hj' : jitterInRange j') :
    reconnectDelay a j < reconnectDelay (a + 1) j' ∧
    (a ≤ 8 → reconnectDelay a j < baseReconnectDelay * 2 ^ 7 + 600) := by
  obtain ⟨hj1, hj2⟩ := hj
  obtain ⟨hj1', hj2'⟩ := hj'
  simp only [reconnectDelay, baseReconnectDelay]
  constructor
  · have h1 : (1 : ℚ) ≤ 2 ^ (a - 1) := one_le_pow₀ (by norm_num)
    have h2 : a + 1 - 1 = (a - 1) + 1 := by omega
    rw [h2, pow_succ]
    nlinarith
  · intro h8
    have h1 : (2 : ℚ) ^ (a - 1) ≤ 2 ^ 7 :=
      pow_le_pow_right₀ (by norm_num) (by omega)
    nlinarith

/-- Witness for `c1_amended_backoff` at the first retry. -/
theorem c1_amended_backoff_witness :
    reconnectDelay 1 300 < reconnectDelay 2 300 ∧
    reconnectDelay 1 300 < baseReconnectDelay * 2 ^ 7 + 600 := by
  have h := c1_amended_backoff 1 (by norm_num) 300 300
    ⟨by norm_num, by norm_num⟩ ⟨by norm_num, by norm_num⟩
  exact ⟨h.1, h.2 (by norm_num)⟩

/-- C2: `close()` does **not** detach the transport callbacks of the socket
it supersedes, and a late callback from that socket does mutate the
client's state after a subsequent `open()`.  Concretely: after
`connect(); disconnect(); connect()` the service is `connecting` on socket 1
and socket 0 — closed by `disconnect()` — still has the service's callbacks
attached; when socket 0's close event then arrives, the handler flips the
state to `reconnecting`, bumps `reconnectAttempts` to 1 and schedules a
competing reconnect timer, cross-talk the claim says is impossible. -/
theorem c2_late_callback_mutates_state :
    ((run initSt [Ev.opConnect, Ev.opDisconnect, Ev.opConnect]).1.state =
        WSState.connecting ∧
      (run initSt [Ev.opConnect, Ev.opDisconnect, Ev.opConnect]).1.socket = some 1 ∧
      (run initSt [Ev.opConnect, Ev.opDisconnect, Ev.opConnect]).1.socks[0]? =
        some { ready := ReadyState.closing, attached := true }) ∧
    ((run initSt
        [Ev.opConnect, Ev.opDisconnect, Ev.opConnect, Ev.sockClosed 0 none 5]).1.state =
        WSState.reconnecting ∧
      (run initSt
        [Ev.opConnect, Ev.opDisconnect, Ev.opConnect, Ev.sockClosed 0 none 5]).1.reconnectAttempts = 1 ∧
      (run initSt
        [Ev.opConnect, Ev.opDisconnect, Ev.opConnect, Ev.sockClosed 0 none 5]).1.pendingReconnects = 1) :=
  ⟨⟨rfl, rfl, rfl⟩, rfl, rfl, rfl⟩

/-- C3 (counterexample): `open()` is not idempotent while `Connecting`.
From the fresh service, `connect(); connect()` allocates a second transport
while the first is still CONNECTING, so two transport handles are live at
once. -/
theorem c3_counterexample_double_connect :
    (run initSt [Ev.opConnect]).1.state = WSState.connecting ∧
    (run initSt [Ev.opConnect, Ev.opConnect]).1.socks =
      [{ ready := ReadyState.connecting, attached := true },
       { ready := ReadyState.connecting, attached := true }] :=
  ⟨rfl, rfl⟩

/-- C3 (amended): `open()` is idempotent only when the current transport is
OPEN (the `Connected` case): it then constructs no second transport and
changes nothing; calling it while `Connecting` constructs a second
transport instance. -/
theorem c3_amended_idempotent_when_open (s : St) (h : currentSockOpen s = true) :
    connect s = (s, []) := by
  simp [connect, h]

/-- Witness for `c3_amended_idempotent_when_open` on a connected service. -/
theorem c3_amended_idempotent_when_open_witness :
    connect { initSt with
                socket := some 0,
                socks := [{ ready := ReadyState.opened, attached := true }],
                state := WSState.connected } =
      ({ initSt with
           socket := some 0,
           socks := [{ ready := ReadyState.opened, attached := true }],
           state := WSState.connected }, []) :=
  c3_amended_idempotent_when_open _ (by decide)

/-- C4 (counterexample): an inbound frame of reserved type `ping` is *not*
consumed internally: with a subscriber (id 7) on channel `ping` and a
wildcard subscriber (id 9), the `onmessage` handler dispatches the ping
frame to both. -/
theorem c4_counterexample_ping_dispatched :
    (run { initSt with
             listeners := [("ping", [7]), ("*", [9])],
             socks := [{ ready := ReadyState.opened, attached := true }],
             socket := some 0 }
       [Ev.sockMessage 0 (some { msgType := some "ping", status := none, rest := "x" })]).2 =
      [Action.invoke 7 (Payload.msg { msgType := some "ping", status := none, rest := "x" }),
       Action.invoke 9
         (Payload.star "ping"
           (Payload.msg { msgType := some "ping", status := none, rest := "x" }))] :=
  rfl

/-- C4 (amended): only `pong` is reserved: an inbound `pong` is consumed by
the heartbeat logic (its pending deadline is cancelled) and no subscriber —
wildcard included — is invoked for it; every other inbound type, `ping`
included, is handed to the dispatcher keyed by its type. -/
theorem c4_amended_pong_only_interception (s : St) (m : InMsg) :
    (effType m = "pong" →
      onMessage s (some m) = ({ s with pongTimeout := false }, [])) ∧
    (effType m ≠ "pong" →
      onMessage s (some m) = (s, emitActs s.listeners (effType m) (Payload.msg m))) := by
  constructor <;> intro h <;> simp [onMessage, h]

/-- Witness for `c4_amended_pong_only_interception` on a pong and an
application frame. -/
theorem c4_amended_pong_only_interception_witness :
    onMessage initSt (some { msgType := some "pong", status := none, rest := "" }) =
      ({ initSt with pongTimeout := false }, []) ∧
    onMessage initSt (some { msgType := some "alert", status := none, rest := "" }) =
      (initSt,
        emitActs initSt.listeners "alert"
          (Payload.msg { msgType := some "alert", status := none, rest := "" })) :=
  ⟨(c4_amended_pong_only_interception initSt _).1 (by decide),
   (c4_amended_pong_only_interception initSt _).2 (by decide)⟩

/-- C6: `send` never fails on a disconnected transport: whenever the current
socket is not OPEN (or absent) it only appends to the bounded queue and
produces no transmission, and when the current socket is OPEN it transmits
the serialized `{type, data}` envelope immediately, leaving the state
untouched. -/
theorem c6_send_no_throw (s : St) (ty d : String) :
    (currentSockOpen s = false →
      send s ty d =
        ({ s with messageQueue := enqueue s.maxQueueSize s.messageQueue (ty, d) }, [])) ∧
    (∀ i, s.socket = some i → sockReady s i = ReadyState.opened →
      send s ty d = (s, [Action.transmit i (OutMsg.env ty d)])) := by
  constructor
  · intro h
    unfold currentSockOpen at h
    unfold send
    cases hso : s.socket with
    | none => simp
    | some i =>
        rw [hso] at h
        have h' : (sockReady s i == ReadyState.opened) = false := h
        simp [h']
  · intro i hi hr
    unfold send
    rw [hi]
    simp [hr]

/-- Witness for `c6_send_no_throw`: a disconnected send enqueues, a
connected send transmits. -/
theorem c6_send_no_throw_witness :
    send initSt "alert" "1" = ({ initSt with messageQueue := [("alert", "1")] }, []) ∧
    send { initSt with
             socket := some 0,
             socks := [{ ready := ReadyState.opened, attached := true }] } "alert" "1" =
      ({ initSt with
           socket := some 0,
           socks := [{ ready := ReadyState.opened, attached := true }] },
        [Action.transmit 0 (OutMsg.env "alert" "1")]) :=
  ⟨(c6_send_no_throw initSt "alert" "1").1 (by decide),
   (c6_send_no_throw _ "alert" "1").2 0 rfl (by decide)⟩

/-- C7: a successful open of the installed transport resets
`reconnectAttempts` to exactly 0 whatever its prior value, sets state
`Connected`, records `lastConnectedAt`, dispatches the `connection`
`{status: "connected"}` event, arms the heartbeat probe timer, and flushes
the outbound queue in FIFO order, leaving it empty. -/
theorem c7_on_open_effects (s : St) (i : Nat) (sk : Sock) (now : Nat)
    (hget : s.socks[i]? = some sk)
    (hready : sk.ready = ReadyState.connecting)
    (hatt : sk.attached = true)
    (hcur : s.socket = some i) :
    (step s (Ev.sockOpened i now)).1.reconnectAttempts = 0 ∧
    (step s (Ev.sockOpened i now)).1.state = WSState.connected ∧
    (step s (Ev.sockOpened i now)).1.lastConnectedAt = some now ∧
    (step s (Ev.sockOpened i now)).1.heartbeatTimer = true ∧
    (step s (Ev.sockOpened i now)).1.messageQueue = [] ∧
    (step s (Ev.sockOpened i now)).2 =
      emitActs s.listeners "connection" (Payload.conn "connected" none none) ++
        s.messageQueue.map (fun m => Action.transmit i (OutMsg.env m.1 m.2)) := by
  have hlt : i < s.socks.length := (List.getElem?_eq_some.mp hget).1
  simp only [step, hget, hready, hatt, onOpen, startHeartbeat, clearHeartbeat, flushQueue,
    sockReady, beq_self_eq_true, if_true, hcur, List.getElem?_set_eq_of_lt _ hlt]
  cases hq : s.messageQueue with
  | nil => simp
  | cons m q => simp

/-- Witness for `c7_on_open_effects`: a first open with one queued message. -/
theorem c7_on_open_effects_witness :
    (step { initSt with
              socket := some 0,
              socks := [{ ready := ReadyState.connecting, attached := true }],
              state := WSState.connecting,
              reconnectAttempts := 3,
              messageQueue := [("alert", "1")] }
        (Ev.sockOpened 0 42)).1.reconnectAttempts = 0 ∧
    (step { initSt with
              socket := some 0,
              socks := [{ ready := ReadyState.connecting, attached := true }],
              state := WSState.connecting,
              reconnectAttempts := 3,
              messageQueue := [("alert", "1")] }
        (Ev.sockOpened 0 42)).1.state = WSState.connected ∧
    (step { initSt with
              socket := some 0,
              socks := [{ ready := ReadyState.connecting, attached := true }],
              state := WSState.connecting,
              reconnectAttempts := 3,
              messageQueue := [("alert", "1")] }
        (Ev.sockOpened 0 42)).2 =
      [Action.transmit 0 (OutMsg.env "alert" "1")] := by
  have h := c7_on_open_effects
    { initSt with
        socket := some 0,
        socks := [{ ready := ReadyState.connecting, attached := true }],
        state := WSState.connecting,
        reconnectAttempts := 3,
        messageQueue := [("alert", "1")] }
    0 { ready := ReadyState.connecting, attached := true } 42 rfl rfl rfl rfl
  exact ⟨h.1, h.2.1, h.2.2.2.2.2⟩

/-! ### Listener-registry lemmas -/

theorem getSet_cons (k : String) (cs : List ListenerId) (t : Listeners) (e : String) :
    getSet ((k, cs) :: t) e = if k == e then some cs else getSet t e := by
  by_cases hk : (k == e) = true
  · simp [getSet, List.find?_cons, hk]
  · simp only [Bool.not_eq_true] at hk
    simp [getSet, List.find?_cons, hk]

theorem onListen_cons_ne (k : String) (cs : List ListenerId) (t : Listeners)
    (e : String) (cb : ListenerId) (hk : (k == e) = false) :
    onListen ((k, cs) :: t) e cb = (k, cs) :: onListen t e cb := by
  have hkp : k ≠ e := beq_eq_false_iff_ne.mp hk
  cases hg : getSet t e with
  | none => simp [onListen, getSet_cons, hk, hkp, hg]
  | some st => simp [onListen, getSet_cons, hk, hkp, hg]

theorem offListen_cons_ne (k : String) (cs : List ListenerId) (t : Listeners)
    (e : String) (cb : ListenerId) (hk : (k == e) = false) :
    offListen ((k, cs) :: t) e cb = (k, cs) :: offListen t e cb := by
  have hkp : k ≠ e := beq_eq_false_iff_ne.mp hk
  cases hg : getSet t e with
  | none => simp [offListen, getSet_cons, hk, hkp, hg]
  | some st =>
      by_cases he : (st.filter (fun c => c != cb)).isEmpty
      · simp [offListen, getSet_cons, hk, hkp, hg, he, List.filter_cons]
      · simp only [Bool.not_eq_true] at he
        simp [offListen, getSet_cons, hk, hkp, hg, he]

theorem map_update_ne (t : Listeners) (e : String)
    (upd : String × List ListenerId → String × List ListenerId)
    (htne : ∀ p ∈ t, (p.1 == e) = false) :
    t.map (fun p => if p.1 == e then upd p else p) = t := by
  have h := List.map_congr_left (l := t)
    (f := fun p => if p.1 == e then upd p else p) (g := id)
    (by intro a ha; simp [htne a ha])
  simpa using h

/-- Re-registering then deregistering a callback that was not registered
restores the registry exactly (well-formed registries: no duplicate channel
keys, no empty listener sets). -/
theorem offListen_onListen (e : String) (cb : ListenerId) (ls : Listeners)
    (hnd : (ls.map Prod.fst).Nodup)
    (hne : ∀ p ∈ ls, p.2 ≠ [])
    (hcb : ∀ p ∈ ls, cb ∉ p.2) :
    offListen (onListen ls e cb) e cb = ls := by
  induction ls with
  | nil => simp [onListen, offListen, getSet, List.find?_cons]
  | cons hd t ih =>
      obtain ⟨k, cs⟩ := hd
      by_cases hk : (k == e) = true
      · have hkeq : k = e := by simpa using hk
        have hcb0 : cb ∉ cs := hcb (k, cs) (List.mem_cons_self _ _)
        have hne0 : cs ≠ [] := hne (k, cs) (List.mem_cons_self _ _)
        have htne : ∀ p ∈ t, (p.1 == e) = false := by
          intro p hp
          have hknot : k ∉ t.map Prod.fst := by
            have := hnd
            simp only [List.map_cons, List.nodup_cons] at this
            exact this.1
          have : p.1 ≠ e := by
            intro hpe
            apply hknot
            rw [hkeq, ← hpe]
            exact List.mem_map_of_mem Prod.fst hp
          simp [this]
        have hcontains : cs.contains cb = false := by simp [hcb0]
        have hon : onListen ((k, cs) :: t) e cb = (k, cs ++ [cb]) :: t := by
          simp only [onListen, getSet_cons, hk, if_true]
          rw [List.map_cons]
          simp only [hk, if_true, hcontains, Bool.false_eq_true, if_false]
          rw [map_update_ne t e _ htne]
        rw [hon]
        have hfilter : (cs ++ [cb]).filter (fun c => c != cb) = cs := by
          rw [List.filter_append]
          have h1 : cs.filter (fun c => c != cb) = cs := by
            apply List.filter_eq_self.mpr
            intro a ha
            simp
            exact fun hh => hcb0 (hh ▸ ha)
          simp [h1]
        simp only [offListen, getSet_cons, hk, if_true, hfilter]
        rw [if_neg (by simp [List.isEmpty_eq_false, hne0])]
        rw [List.map_cons]
        simp only [hk, if_true]
        rw [map_update_ne t e _ htne]
      · simp only [Bool.not_eq_true] at hk
        rw [onListen_cons_ne _ _ _ _ _ hk, offListen_cons_ne _ _ _ _ _ hk]
        have hnd' : (t.map Prod.fst).Nodup := by
          simp only [List.map_cons, List.nodup_cons] at hnd
          exact hnd.2
        rw [ih hnd' (fun p hp => hne p (List.mem_cons_of_mem _ hp))
          (fun p hp => hcb p (List.mem_cons_of_mem _ hp))]

/-- After `on(e, cb)`, channel `e`'s set exists and holds `cb`. -/
theorem getSet_onListen_self (e : String) (cb : ListenerId) (ls : Listeners) :
    ∃ st, getSet (onListen ls e cb) e = some st ∧ cb ∈ st := by
  induction ls with
  | nil =>
      refine ⟨[cb], ?_, List.mem_singleton_self cb⟩
      simp [onListen, getSet, List.find?_cons]
  | cons hd t ih =>
      obtain ⟨k, cs⟩ := hd
      by_cases hk : (k == e) = true
      · by_cases hc : cs.contains cb = true
        · refine ⟨cs, ?_, by simpa using hc⟩
          simp only [onListen, getSet_cons, hk, if_true]
          rw [List.map_cons]
          simp only [hk, if_true, hc, if_true]
          rw [getSet_cons]
          simp [hk]
        · simp only [Bool.not_eq_true] at hc
          refine ⟨cs ++ [cb], ?_, by simp⟩
          simp only [onListen, getSet_cons, hk, if_true]
          rw [List.map_cons]
          simp only [hk, if_true, hc, Bool.false_eq_true, if_false]
          rw [getSet_cons]
          simp [hk]
      · simp only [Bool.not_eq_true] at hk
        obtain ⟨st, h1, h2⟩ := ih
        refine ⟨st, ?_, h2⟩
        rw [onListen_cons_ne _ _ _ _ _ hk, getSet_cons]
        simp [hk, h1]

theorem getSet_some_mem {ls : Listeners} {ch : String} {st : List ListenerId}
    (h : getSet ls ch = some st) : ∃ pr ∈ ls, pr.2 = st := by
  unfold getSet at h
  cases hf : ls.find? (fun p => p.1 == ch) with
  | none => rw [hf] at h; simp at h
  | some pr =>
      rw [hf] at h
      simp only [Option.map_some', Option.some.injEq] at h
      exact ⟨pr, List.mem_of_find?_eq_some hf, h⟩

/-- A registered callback is invoked by an emit on its channel. -/
theorem invoke_mem_emitActs {ls : Listeners} {e : String} {st : List ListenerId}
    {cb : ListenerId} (h : getSet ls e = some st) (hmem : cb ∈ st) (d : Payload) :
    Action.invoke cb d ∈ emitActs ls e d := by
  unfold emitActs
  rw [h]
  exact List.mem_append_left _ (List.mem_map_of_mem _ hmem)

/-- A callback registered on no channel is never invoked by any emit. -/
theorem invoke_not_mem_emitActs {ls : Listeners} {cb : ListenerId}
    (hfresh : ∀ p ∈ ls, cb ∉ p.2) (ch : String) (d q : Payload) :
    Action.invoke cb q ∉ emitActs ls ch d := by
  intro hmem
  unfold emitActs at hmem
  rcases List.mem_append.mp hmem with h | h
  · cases hg : getSet ls ch with
    | none => rw [hg] at h; simp at h
    | some st =>
        rw [hg] at h
        obtain ⟨c, hc, heq⟩ := List.mem_map.mp h
        obtain ⟨pr, hpr, hpr2⟩ := getSet_some_mem hg
        cases heq
        exact hfresh pr hpr (hpr2 ▸ hc)
  · cases hg : getSet ls "*" with
    | none => rw [hg] at h; simp at h
    | some st =>
        rw [hg] at h
        obtain ⟨c, hc, heq⟩ := List.mem_map.mp h
        obtain ⟨pr, hpr, hpr2⟩ := getSet_some_mem hg
        cases heq
        exact hfresh pr hpr (hpr2 ▸ hc)

/-- C8: `waitForConnection` resolves `true` at once (with no registration)
when already connected; otherwise it registers a handler on the
`connection` channel that the next `{status: "connected"}` emit invokes,
resolving `true`, while the timeout path resolves `false` — in both cases
the handler registration is removed, the registry returning exactly to its
prior value, and afterwards neither the dead timer nor any further emit can
resolve the future again. -/
theorem c8_wait_for_connection (s : St) (cb : ListenerId)
    (hnd : (s.listeners.map Prod.fst).Nodup)
    (hne : ∀ p ∈ s.listeners, p.2 ≠ [])
    (hfresh : ∀ p ∈ s.listeners, cb ∉ p.2) :
    (s.state = WSState.connected →
      wfcStart s cb = (s, { resolved := some true, timerActive := false, cb := cb })) ∧
    (s.state ≠ WSState.connected →
      (wfcStart s cb).2.resolved = none ∧
      (∀ r er, Action.invoke cb (Payload.conn "connected" r er) ∈
          emitActs (wfcStart s cb).1.listeners "connection" (Payload.conn "connected" r er)) ∧
      (∀ r er,
        wfcOnEvent (wfcStart s cb).1 (wfcStart s cb).2 (Payload.conn "connected" r er) =
          (s, { resolved := some true, timerActive := false, cb := cb })) ∧
      wfcTimeout (wfcStart s cb).1 (wfcStart s cb).2 =
        (s, { resolved := some false, timerActive := false, cb := cb }) ∧
      listenerCount (wfcTimeout (wfcStart s cb).1 (wfcStart s cb).2).1.listeners =
        listenerCount s.listeners ∧
      (∀ b, wfcTimeout s { resolved := some b, timerActive := false, cb := cb } =
        (s, { resolved := some b, timerActive := false, cb := cb })) ∧
      (∀ ch d q, Action.invoke cb q ∉ emitActs s.listeners ch d)) := by
  constructor
  · intro h
    simp [wfcStart, h]
  · intro h
    have hb : (s.state == WSState.connected) = false := by
      simp [beq_eq_false_iff_ne, h]
    have hrestore : offListen (onListen s.listeners "connection" cb) "connection" cb =
        s.listeners := offListen_onListen _ _ _ hnd hne hfresh
    refine ⟨?_, ?_, ?_, ?_, ?_, ?_, ?_⟩
    · simp [wfcStart, hb]
    · intro r er
      obtain ⟨st, h1, h2⟩ := getSet_onListen_self "connection" cb s.listeners
      simp only [wfcStart, hb, Bool.false_eq_true, if_false]
      exact invoke_mem_emitActs h1 h2 _
    · intro r er
      simp only [wfcStart, hb, Bool.false_eq_true, if_false, wfcOnEvent]
      simp [hrestore]
    · simp only [wfcStart, hb, Bool.false_eq_true, if_false, wfcTimeout]
      simp [hrestore]
    · simp only [wfcStart, hb, Bool.false_eq_true, if_false, wfcTimeout]
      simp [hrestore]
    · intro b
      simp [wfcTimeout]
    · intro ch d q
      exact invoke_not_mem_emitActs hfresh ch d q

/-- Witness for `c8_wait_for_connection`: a connecting service with one
unrelated subscriber; the future resolves `true` on the connected event and
`false` on timeout, restoring the registry each time. -/
theorem c8_wait_for_connection_witness :
    (wfcStart { initSt with listeners := [("alert", [3])], state := WSState.connecting } 5).2.resolved =
      none ∧
    wfcOnEvent
        (wfcStart { initSt with listeners := [("alert", [3])], state := WSState.connecting } 5).1
        (wfcStart { initSt with listeners := [("alert", [3])], state := WSState.connecting } 5).2
        (Payload.conn "connected" none none) =
      ({ initSt with listeners := [("alert", [3])], state := WSState.connecting },
        { resolved := some true, timerActive := false, cb := 5 }) ∧
    wfcTimeout
        (wfcStart { initSt with listeners := [("alert", [3])], state := WSState.connecting } 5).1
        (wfcStart { initSt with listeners := [("alert", [3])], state := WSState.connecting } 5).2 =
      ({ initSt with listeners := [("alert", [3])], state := WSState.connecting },
        { resolved := some false, timerActive := false, cb := 5 }) := by
  have h := (c8_wait_for_connection
    { initSt with listeners := [("alert", [3])], state := WSState.connecting } 5
    (by decide) (by decide) (by decide)).2 (by decide)
  exact ⟨h.1, h.2.2.1 none none, h.2.2.2.1⟩

/-! ### Outbound-queue lemmas -/

theorem enqueue_length_le {N : Nat} (hN : 0 < N) {q : List (String × String)}
    (h : q.length ≤ N) (m : String × String) : (enqueue N q m).length ≤ N := by
  unfold enqueue
  by_cases hf : N ≤ q.length
  · simp [hf]
    omega
  · simp [hf]
    omega

theorem foldl_enqueue_length {N : Nat} (hN : 0 < N) (ms : List (String × String)) :
    ∀ q : List (String × String), q.length ≤ N →
      (List.foldl (enqueue N) q ms).length ≤ N := by
  induction ms with
  | nil => intro q hq; simpa using hq
  | cons m ms ih =>
      intro q hq
      rw [List.foldl_cons]
      exact ih _ (enqueue_length_le hN hq m)

theorem foldl_enqueue_drop {N : Nat} (hN : 0 < N) (ms : List (String × String)) :
    ∀ q : List (String × String), q.length ≤ N →
      List.foldl (enqueue N) q ms = (q ++ ms).drop (q.length + ms.length - N) := by
  induction ms with
  | nil =>
      intro q hq
      have : q.length + 0 - N = 0 := by omega
      simp [this]
      rw [show q.length - N = 0 by omega]
      simp
  | cons m ms ih =>
      intro q hq
      rw [List.foldl_cons]
      by_cases hf : N ≤ q.length
      · have hqN : q.length = N := le_antisymm hq hf
        have hq1 : q ≠ [] := by
          intro hnil
          rw [hnil] at hqN
          simp at hqN
          omega
        have henq : enqueue N q m = q.drop 1 ++ [m] := by simp [enqueue, hf]
        have hlen : (q.drop 1 ++ [m]).length = N := by
          simp [List.length_drop]
          omega
        rw [henq, ih _ (le_of_eq hlen), hlen, hqN]
        have h2 : N + ms.length - N = ms.length := by omega
        have h3 : N + (m :: ms).length - N = ms.length + 1 := by simp
        rw [h2, h3]
        have h4 : q ++ m :: ms = (q ++ [m]) ++ ms := by simp
        rw [h4]
        have h5 : ms.length + 1 = 1 + ms.length := by omega
        rw [h5, ← List.drop_drop]
        have h6 : (q ++ [m] ++ ms).drop 1 = (q.drop 1 ++ [m]) ++ ms := by
          rw [List.drop_append_of_le_length (by simp)]
          rw [List.drop_append_of_le_length (by omega)]
        rw [h6]
      · have henq : enqueue N q m = q ++ [m] := by simp [enqueue, hf]
        have hlen : (q ++ [m]).length ≤ N := by simp; omega
        rw [henq, ih _ hlen]
        have h7 : (q ++ [m]) ++ ms = q ++ m :: ms := by simp
        rw [h7]
        have h8 : (q ++ [m]).length + ms.length - N = q.length + (m :: ms).length - N := by
          simp
          omega
        rw [h8]

/-- While the current socket is not OPEN, a sequence of `send` calls only
folds `enqueue` over the outbound queue and transmits nothing. -/
theorem run_sends (msgs : List (String × String)) :
    ∀ s : St, currentSockOpen s = false →
      run s (msgs.map (fun m => Ev.opSend m.1 m.2)) =
        ({ s with messageQueue := List.foldl (enqueue s.maxQueueSize) s.messageQueue msgs },
          []) := by
  induction msgs with
  | nil => intro s _; simp [run]
  | cons m ms ih =>
      intro s hs
      have hstep : step s (Ev.opSend m.1 m.2) =
          ({ s with messageQueue := enqueue s.maxQueueSize s.messageQueue (m.1, m.2) }, []) := by
        simp only [step, send]
        unfold currentSockOpen at hs
        cases hso : s.socket with
        | none => simp
        | some i =>
            rw [hso] at hs
            have h' : (sockReady s i == ReadyState.opened) = false := hs
            simp [h']
      have hs' : currentSockOpen
          { s with messageQueue := enqueue s.maxQueueSize s.messageQueue (m.1, m.2) } = false := hs
      simp only [List.map_cons, run, hstep, ih _ hs']
      rfl

theorem emitActs_filter_transmit (ls : Listeners) (e : String) (d : Payload) :
    (emitActs ls e d).filter isTransmitAct = [] := by
  unfold emitActs
  rw [List.filter_append]
  cases getSet ls e <;> cases getSet ls "*" <;>
    simp [List.filter_map, isTransmitAct, List.filter_eq_nil_iff]

/-- C5: with bound `N = maxQueueSize`, sending `N + k` messages while the
transport is not open keeps the queue within the bound at every step and
leaves exactly the last `N` messages in FIFO order; the flush after the
next successful open transmits exactly those messages, in that order, and
empties the queue. -/
theorem c5_queue_bound_fifo_flush (s : St) (msgs : List (String × String)) (k now : Nat)
    (hopen : currentSockOpen s = false)
    (hq : s.messageQueue = [])
    (hN : 0 < s.maxQueueSize)
    (hlen : msgs.length = s.maxQueueSize + k) :
    ((run s (msgs.map (fun m => Ev.opSend m.1 m.2))).1.messageQueue = msgs.drop k) ∧
    (∀ j, ((run s ((msgs.take j).map (fun m => Ev.opSend m.1 m.2))).1.messageQueue.length ≤
        s.maxQueueSize)) ∧
    ((run s (msgs.map (fun m => Ev.opSend m.1 m.2))).2 = []) ∧
    ((step (connect (run s (msgs.map (fun m => Ev.opSend m.1 m.2))).1).1
        (Ev.sockOpened s.socks.length now)).2.filter isTransmitAct =
      (msgs.drop k).map (fun m => Action.transmit s.socks.length (OutMsg.env m.1 m.2))) ∧
    ((step (connect (run s (msgs.map (fun m => Ev.opSend m.1 m.2))).1).1
        (Ev.sockOpened s.socks.length now)).1.messageQueue = []) := by
  have hfold : List.foldl (enqueue s.maxQueueSize) s.messageQueue msgs = msgs.drop k := by
    rw [hq, foldl_enqueue_drop hN msgs [] (by simp)]
    simp [hlen]
  have hrun := run_sends msgs s hopen
  have hdroplen : (msgs.drop k).length = s.maxQueueSize := by
    simp [List.length_drop, hlen]
  have hdropne : msgs.drop k ≠ [] := by
    intro hnil
    rw [hnil] at hdroplen
    simp at hdroplen
    omega
  refine ⟨?_, ?_, ?_, ?_, ?_⟩
  · rw [hrun, hfold]
  · intro j
    rw [run_sends (msgs.take j) s hopen]
    exact foldl_enqueue_length hN _ _ (by simp [hq])
  · rw [hrun]
  · rw [hrun]
    set s1 : St :=
      { s with messageQueue := List.foldl (enqueue s.maxQueueSize) s.messageQueue msgs } with hs1
    have hguard : currentSockOpen s1 = false := hopen
    have hconn : (connect s1).1 =
        { s1 with
            manualClose := false,
            state := WSState.connecting,
            socks := s1.socks ++ [{ ready := ReadyState.connecting, attached := true }],
            socket := some s1.socks.length } := by
      simp only [connect, hguard, Bool.false_eq_true, if_false, setupEventHandlers]
      rw [List.getElem?_concat_length]
      simp only []
      rw [List.set_append]
      simp
    rw [hconn]
    simp only [step]
    rw [List.getElem?_concat_length]
    simp only [beq_self_eq_true, if_true, onOpen, startHeartbeat, clearHeartbeat, flushQueue]
    rw [List.set_append]
    simp only [lt_self_iff_false, if_false, Nat.sub_self, List.set]
    have hqne : (List.foldl (enqueue s.maxQueueSize) s.messageQueue msgs).isEmpty = false := by
      rw [hfold]
      simp [List.isEmpty_eq_false, hdropne]
    simp only [hqne, Bool.false_eq_true, if_false, sockReady]
    simp only [List.getElem?_concat_length]
    simp only [beq_self_eq_true, if_true]
    rw [List.filter_append, emitActs_filter_transmit, hfold, List.nil_append]
    apply List.filter_eq_self.mpr
    intro a ha
    obtain ⟨m, hm, hma⟩ := List.mem_map.mp ha
    rw [← hma]
    rfl
  · rw [hrun]
    set s1 : St :=
      { s with messageQueue := List.foldl (enqueue s.maxQueueSize) s.messageQueue msgs } with hs1
    have hguard : currentSockOpen s1 = false := hopen
    have hconn : (connect s1).1 =
        { s1 with
            manualClose := false,
            state := WSState.connecting,
            socks := s1.socks ++ [{ ready := ReadyState.connecting, attached := true }],
            socket := some s1.socks.length } := by
      simp only [connect, hguard, Bool.false_eq_true, if_false, setupEventHandlers]
      rw [List.getElem?_concat_length]
      simp only []
      rw [List.set_append]
      simp
    rw [hconn]
    simp only [step]
    rw [List.getElem?_concat_length]
    simp only [beq_self_eq_true, if_true, onOpen, startHeartbeat, clearHeartbeat, flushQueue]
    rw [List.set_append]
    simp only [lt_self_iff_false, if_false, Nat.sub_self, List.set]
    have hqne : (List.foldl (enqueue s.maxQueueSize) s.messageQueue msgs).isEmpty = false := by
      rw [hfold]
      simp [List.isEmpty_eq_false, hdropne]
    simp only [hqne, Bool.false_eq_true, if_false, sockReady]
    simp only [List.getElem?_concat_length]
    simp only [beq_self_eq_true, if_true]

/-- Witness for `c5_queue_bound_fifo_flush`: bound 2, three sends, flush
after the open transmits the last two. -/
theorem c5_queue_bound_fifo_flush_witness :
    ((run { initSt with maxQueueSize := 2 }
        [Ev.opSend "a" "1", Ev.opSend "b" "2", Ev.opSend "c" "3"]).1.messageQueue =
      [("b", "2"), ("c", "3")]) ∧
    ((step (connect (run { initSt with maxQueueSize := 2 }
          [Ev.opSend "a" "1", Ev.opSend "b" "2", Ev.opSend "c" "3"]).1).1
        (Ev.sockOpened 0 9)).2.filter isTransmitAct =
      [Action.transmit 0 (OutMsg.env "b" "2"), Action.transmit 0 (OutMsg.env "c" "3")]) := by
  have h := c5_queue_bound_fifo_flush { initSt with maxQueueSize := 2 }
    [("a", "1"), ("b", "2"), ("c", "3")] 1 9 rfl rfl (by decide) (by decide)
  exact ⟨h.1, h.2.2.2.1⟩

/-! ### Quiescence after the retry ceiling -/

theorem sock_mem_of_getElem? {l : List Sock} {i : Nat} {sk : Sock}
    (h : l[i]? = some sk) : sk ∈ l := by
  obtain ⟨hlt, hel⟩ := List.getElem?_eq_some.mp h
  exact hel ▸ List.getElem_mem hlt

/-- A quiescent service is inert under every event that is not an operator
`open()`/`forceReconnect()`: no new transport is allocated and quiescence is
preserved. -/
theorem quiet_step (s : St) (e : Ev) (hquiet : Quiet s)
    (hop : isOperatorOpen e = false) :
    (step s e).1.socks.length = s.socks.length ∧ Quiet (step s e).1 := by
  obtain ⟨h1, h2, h3, h4, h5, h6⟩ := hquiet
  cases e with
  | opConnect => simp [isOperatorOpen] at hop
  | opForceReconnect => simp [isOperatorOpen] at hop
  | opDisconnect =>
      simp only [step, disconnect, clearHeartbeat]
      cases hso : s.socket with
      | none =>
          exact ⟨by trivial, h1, by trivial, by trivial, by trivial, h5, h6⟩
      | some i =>
          simp only [closeSock]
          cases hsk : s.socks[i]? with
          | none => exact ⟨by trivial, h1, by trivial, by trivial, by trivial, h5, h6⟩
          | some sk =>
              have hclosed : sk.ready = ReadyState.closed := h6 sk (sock_mem_of_getElem? hsk)
              simp only [hclosed]
              refine ⟨by simp, h1, rfl, rfl, rfl, h5, ?_⟩
              intro sk' hmem
              rcases List.mem_or_eq_of_mem_set hmem with hmem' | hrfl
              · exact h6 sk' hmem'
              · rw [hrfl]
                simp
  | opSend ty d =>
      simp only [step, send]
      cases hso : s.socket with
      | none => exact ⟨by trivial, h1, h2, h3, h4, h5, h6⟩
      | some i =>
          have hnopen : (sockReady s i == ReadyState.opened) = false := by
            unfold sockReady
            cases hsk : s.socks[i]? with
            | none => rfl
            | some sk =>
                have hclosed : sk.ready = ReadyState.closed :=
                  h6 sk (sock_mem_of_getElem? hsk)
                simp [hclosed]
          simp only [hnopen, Bool.false_eq_true, if_false]
          exact ⟨by trivial, h1, h2, h3, h4, h5, h6⟩
  | opOn ch cb => exact ⟨by trivial, h1, h2, h3, h4, h5, h6⟩
  | opOff ch cb => exact ⟨by trivial, h1, h2, h3, h4, h5, h6⟩
  | sockOpened i now =>
      simp only [step]
      cases hsk : s.socks[i]? with
      | none => exact ⟨by trivial, h1, h2, h3, h4, h5, h6⟩
      | some sk =>
          have hclosed : sk.ready = ReadyState.closed := h6 sk (sock_mem_of_getElem? hsk)
          simp only [hclosed]
          exact ⟨by trivial, h1, h2, h3, h4, h5, h6⟩
  | sockClosed i reason now =>
      simp only [step]
      cases hsk : s.socks[i]? with
      | none => exact ⟨by trivial, h1, h2, h3, h4, h5, h6⟩
      | some sk =>
          have hclosed : sk.ready = ReadyState.closed := h6 sk (sock_mem_of_getElem? hsk)
          simp only [hclosed, beq_self_eq_true, if_true]
          exact ⟨by trivial, h1, h2, h3, h4, h5, h6⟩
  | sockErrored i err =>
      simp only [step]
      cases hsk : s.socks[i]? with
      | none => exact ⟨by trivial, h1, h2, h3, h4, h5, h6⟩
      | some sk =>
          have hclosed : sk.ready = ReadyState.closed := h6 sk (sock_mem_of_getElem? hsk)
          simp only [hclosed, beq_self_eq_true, if_true]
          exact ⟨by trivial, h1, h2, h3, h4, h5, h6⟩
  | sockMessage i m =>
      simp only [step]
      cases hsk : s.socks[i]? with
      | none => exact ⟨by trivial, h1, h2, h3, h4, h5, h6⟩
      | some sk =>
          have hclosed : sk.ready = ReadyState.closed := h6 sk (sock_mem_of_getElem? hsk)
          simp only [hclosed]
          exact ⟨by trivial, h1, h2, h3, h4, h5, h6⟩
  | reconnectTimer =>
      simp only [step, h1]
      exact ⟨by trivial, h1, h2, h3, h4, h5, h6⟩
  | heartbeatTick now =>
      simp only [step, h2, Bool.false_eq_true, if_false]
      exact ⟨by trivial, h1, h2, h3, h4, h5, h6⟩
  | pongDeadline =>
      simp only [step, h3, Bool.false_eq_true, if_false]
      exact ⟨by trivial, h1, h2, h3, h4, h5, h6⟩

theorem quiet_run (evs : List Ev) : ∀ s : St, Quiet s →
    (∀ e ∈ evs, isOperatorOpen e = false) →
    (run s evs).1.socks.length = s.socks.length ∧ Quiet (run s evs).1 := by
  induction evs with
  | nil => intro s hq _; exact ⟨rfl, hq⟩
  | cons e evs ih =>
      intro s hq hevs
      obtain ⟨hlen, hq'⟩ := quiet_step s e hq (hevs e (List.mem_cons_self _ _))
      obtain ⟨hlen', hq''⟩ := ih _ hq' (fun x hx => hevs x (List.mem_cons_of_mem _ hx))
      simp only [run]
      exact ⟨hlen'.trans hlen, hq''⟩

/-- C9: when the closing transport's failure arrives with the attempt
counter at the configured ceiling, the scheduler schedules nothing: the
`connection` `{status: "disconnected"}` and `{status: "failed"}` events are
dispatched, the counter is not changed, no reconnect timer is pending, the
state remains `Disconnected` — and for any further sequence of
non-operator events (socket events, timer expiries, sends, disconnects,
subscriptions) no new transport is ever constructed and the service stays
`Disconnected` with nothing scheduled.  Only `open()`/`forceReconnect()`
are excluded from that sequence. -/
theorem c9_retry_ceiling (s : St) (i : Nat) (sk : Sock) (r : Option String) (now : Nat)
    (evs : List Ev)
    (hget : s.socks[i]? = some sk)
    (hnotclosed : sk.ready ≠ ReadyState.closed)
    (hatt : sk.attached = true)
    (hmc : s.manualClose = false)
    (hceil : s.maxReconnectAttempts ≤ s.reconnectAttempts)
    (hpend : s.pendingReconnects = 0)
    (hothers : ∀ j, j ≠ i → ∀ sk', s.socks[j]? = some sk' → sk'.ready = ReadyState.closed)
    (hevs : ∀ e ∈ evs, isOperatorOpen e = false) :
    ((step s (Ev.sockClosed i r now)).2 =
      emitActs s.listeners "connection" (Payload.conn "disconnected" r none) ++
        emitActs s.listeners "connection" (Payload.conn "failed" none none)) ∧
    ((step s (Ev.sockClosed i r now)).1.state = WSState.disconnected) ∧
    ((step s (Ev.sockClosed i r now)).1.pendingReconnects = 0) ∧
    ((step s (Ev.sockClosed i r now)).1.reconnectAttempts = s.reconnectAttempts) ∧
    ((step s (Ev.sockClosed i r now)).1.socks.length = s.socks.length) ∧
    ((run (step s (Ev.sockClosed i r now)).1 evs).1.socks.length = s.socks.length) ∧
    ((run (step s (Ev.sockClosed i r now)).1 evs).1.state = WSState.disconnected) ∧
    ((run (step s (Ev.sockClosed i r now)).1 evs).1.pendingReconnects = 0) := by
  have hbne : (sk.ready == ReadyState.closed) = false := beq_eq_false_iff_ne.mpr hnotclosed
  have hred : step s (Ev.sockClosed i r now) =
      ({ s with
           socks := s.socks.set i { sk with ready := ReadyState.closed },
           state := WSState.disconnected,
           heartbeatTimer := false,
           pongTimeout := false,
           lastDisconnectedAt := some now },
        emitActs s.listeners "connection" (Payload.conn "disconnected" r none) ++
          emitActs s.listeners "connection" (Payload.conn "failed" none none)) := by
    simp only [step, hget, hbne, Bool.false_eq_true, if_false, hatt, if_true, onClose,
      clearHeartbeat, handleReconnect, hmc]
    simp [hceil]
  have hquiet : Quiet (step s (Ev.sockClosed i r now)).1 := by
    rw [hred]
    refine ⟨hpend, rfl, rfl, rfl, hceil, ?_⟩
    intro sk' hmem
    rw [List.mem_iff_getElem] at hmem
    obtain ⟨j, hj, hel⟩ := hmem
    rw [List.getElem_set] at hel
    by_cases hij : i = j
    · rw [if_pos hij] at hel
      rw [← hel]
    · rw [if_neg hij] at hel
      have hlen' : j < s.socks.length := by simpa using hj
      have hsome : s.socks[j]? = some sk' := by
        rw [List.getElem?_eq_getElem hlen', hel]
      exact hothers j (fun hji => hij hji.symm) sk' hsome
  obtain ⟨hlen2, hq3⟩ := quiet_run evs _ hquiet hevs
  obtain ⟨q1, _, _, q4, _, _⟩ := hq3
  refine ⟨by rw [hred], by rw [hred], by rw [hred]; exact hpend, by rw [hred], ?_, ?_, q4, q1⟩
  · rw [hred]
    simp
  · rw [hlen2, hred]
    simp

/-- Witness for `c9_retry_ceiling`: a service at the ceiling whose only
socket closes; the subsequent timer fires, send, open-event and disconnect
allocate nothing. -/
theorem c9_retry_ceiling_witness :
    ((step { initSt with
               socket := some 0,
               socks := [{ ready := ReadyState.opened, attached := true }],
               reconnectAttempts := 8,
               state := WSState.connected }
        (Ev.sockClosed 0 none 5)).1.state = WSState.disconnected) ∧
    ((run (step { initSt with
                    socket := some 0,
                    socks := [{ ready := ReadyState.opened, attached := true }],
                    reconnectAttempts := 8,
                    state := WSState.connected }
            (Ev.sockClosed 0 none 5)).1
        [Ev.reconnectTimer, Ev.opSend "a" "1", Ev.sockOpened 0 7,
          Ev.opDisconnect]).1.socks.length = 1) := by
  have h := c9_retry_ceiling
    { initSt with
        socket := some 0,
        socks := [{ ready := ReadyState.opened, attached := true }],
        reconnectAttempts := 8,
        state := WSState.connected }
    0 { ready := ReadyState.opened, attached := true } none 5
    [Ev.reconnectTimer, Ev.opSend "a" "1", Ev.sockOpened 0 7, Ev.opDisconnect]
    rfl (by decide) rfl rfl (by decide) rfl
    (by
      intro j hj sk' hsk
      exfalso
      have hlen : ([{ ready := ReadyState.opened, attached := true }] : List Sock).length ≤ j := by
        simp
        omega
      rw [List.getElem?_eq_none hlen] at hsk
      exact Option.noConfusion hsk)
    (by decide)
  exact ⟨h.2.1, h.2.2.2.2.2.1⟩

/-! ### Empty-registry invariance -/

theorem emitActs_nil (ch : String) (d : Payload) : emitActs [] ch d = [] := rfl

theorem filter_invoke_transmits (i : Nat) (f : String × String → OutMsg)
    (l : List (String × String)) :
    (l.map (fun m => Action.transmit i (f m))).filter isInvokeAct = [] := by
  induction l with
  | nil => rfl
  | cons x xs ih => simpa [List.filter_cons, isInvokeAct] using ih

theorem connect_listeners (s : St) :
    (connect s).1.listeners = s.listeners ∧ (connect s).2 = [] := by
  by_cases hc : currentSockOpen s = true
  · simp [connect, hc]
  · simp only [Bool.not_eq_true] at hc
    simp only [connect, hc, Bool.false_eq_true, if_false, setupEventHandlers]
    simp only [List.getElem?_concat_length]
    exact ⟨by trivial, by trivial⟩

theorem flushQueue_inv (s : St) :
    (flushQueue s).1.listeners = s.listeners ∧
    (flushQueue s).2.filter isInvokeAct = [] := by
  unfold flushQueue
  by_cases he : s.messageQueue.isEmpty = true
  · simp [he]
  · simp only [Bool.not_eq_true] at he
    simp only [he, Bool.false_eq_true, if_false]
    cases hso : s.socket with
    | none => exact ⟨by trivial, by trivial⟩
    | some i =>
        by_cases hr : (sockReady s i == ReadyState.opened) = true
        · simp only [hr, if_true]
          exact ⟨by trivial, filter_invoke_transmits i _ _⟩
        · simp only [Bool.not_eq_true] at hr
          simp only [hr, Bool.false_eq_true, if_false]
          exact ⟨by trivial, by trivial⟩

theorem onOpen_inv (s : St) (now : Nat) (h : s.listeners = []) :
    (onOpen s now).1.listeners = [] ∧ (onOpen s now).2.filter isInvokeAct = [] := by
  simp only [onOpen]
  obtain ⟨hf1, hf2⟩ := flushQueue_inv (startHeartbeat { s with state := WSState.connected, reconnectAttempts := 0, lastConnectedAt := some now })
  refine ⟨hf1.trans h, ?_⟩
  rw [List.filter_append, hf2, List.append_nil]
  have hl : ({ s with state := WSState.connected, reconnectAttempts := 0, lastConnectedAt := some now } : St).listeners = [] := h
  rw [hl]
  rfl

theorem handleReconnect_inv (s : St) (h : s.listeners = []) :
    (handleReconnect s).1.listeners = [] ∧
    (handleReconnect s).2.filter isInvokeAct = [] := by
  unfold handleReconnect
  by_cases hc : s.maxReconnectAttempts ≤ s.reconnectAttempts
  · simp only [if_pos hc]
    exact ⟨h, by rw [h]; rfl⟩
  · simp only [if_neg hc]
    exact ⟨h, rfl⟩

theorem onClose_inv (s : St) (r : Option String) (now : Nat) (h : s.listeners = []) :
    (onClose s r now).1.listeners = [] ∧
    (onClose s r now).2.filter isInvokeAct = [] := by
  simp only [onClose, clearHeartbeat]
  split
  · exact ⟨h, by rw [h]; rfl⟩
  · have hh := handleReconnect_inv { s with state := WSState.disconnected, heartbeatTimer := false, pongTimeout := false, lastDisconnectedAt := some now } h
    exact ⟨hh.1, by rw [List.filter_append, hh.2, List.append_nil, h]; rfl⟩

theorem onMessage_inv (s : St) (m : Option InMsg) (h : s.listeners = []) :
    (onMessage s m).1.listeners = [] ∧
    (onMessage s m).2.filter isInvokeAct = [] := by
  cases m with
  | none => exact ⟨h, rfl⟩
  | some msg =>
      simp only [onMessage]
      by_cases ht : (effType msg == "pong") = true
      · simp only [ht, if_true]
        exact ⟨h, rfl⟩
      · simp only [Bool.not_eq_true] at ht
        simp only [ht, Bool.false_eq_true, if_false]
        exact ⟨h, by rw [h]; rfl⟩

/-- With an empty listener registry, every event other than an `on`
registration leaves the registry empty and invokes no callback. -/
theorem noListeners_step (s : St) (e : Ev) (h : s.listeners = [])
    (hop : isOpOn e = false) :
    (step s e).1.listeners = [] ∧ (step s e).2.filter isInvokeAct = [] := by
  cases e with
  | opOn ch cb => simp [isOpOn] at hop
  | opConnect =>
      obtain ⟨hl, ha⟩ := connect_listeners s
      exact ⟨hl.trans h, by rw [show (step s Ev.opConnect).2 = (connect s).2 from rfl, ha]; rfl⟩
  | opDisconnect => exact ⟨by trivial, by trivial⟩
  | opForceReconnect =>
      obtain ⟨hl, ha⟩ := connect_listeners (disconnect s)
      refine ⟨hl.trans rfl, ?_⟩
      rw [show (step s Ev.opForceReconnect).2 = (connect (disconnect s)).2 from rfl, ha]
      rfl
  | opSend ty d =>
      simp only [step, send]
      cases hso : s.socket with
      | none => exact ⟨h, rfl⟩
      | some i =>
          by_cases hr : (sockReady s i == ReadyState.opened) = true
          · simp only [hr, if_true]
            exact ⟨h, rfl⟩
          · simp only [Bool.not_eq_true] at hr
            simp only [hr, Bool.false_eq_true, if_false]
            exact ⟨h, rfl⟩
  | opOff ch cb =>
      refine ⟨?_, rfl⟩
      show offListen s.listeners ch cb = []
      rw [h]
      rfl
  | sockOpened i now =>
      simp only [step]
      cases hsk : s.socks[i]? with
      | none => exact ⟨h, rfl⟩
      | some sk =>
          by_cases hr : (sk.ready == ReadyState.connecting) = true
          · simp only [hr, if_true]
            by_cases hatt : sk.attached = true
            · simp only [hatt, if_true]
              exact onOpen_inv _ now h
            · simp only [Bool.not_eq_true] at hatt
              simp only [hatt, Bool.false_eq_true, if_false]
              exact ⟨h, rfl⟩
          · simp only [Bool.not_eq_true] at hr
            simp only [hr, Bool.false_eq_true, if_false]
            exact ⟨h, rfl⟩
  | sockClosed i reason now =>
      simp only [step]
      cases hsk : s.socks[i]? with
      | none => exact ⟨h, rfl⟩
      | some sk =>
          by_cases hr : (sk.ready == ReadyState.closed) = true
          · simp only [hr, if_true]
            exact ⟨h, rfl⟩
          · simp only [Bool.not_eq_true] at hr
            simp only [hr, Bool.false_eq_true, if_false]
            by_cases hatt : sk.attached = true
            · simp only [hatt, if_true]
              exact onClose_inv _ reason now h
            · simp only [Bool.not_eq_true] at hatt
              simp only [hatt, Bool.false_eq_true, if_false]
              exact ⟨h, rfl⟩
  | sockErrored i err =>
      simp only [step]
      cases hsk : s.socks[i]? with
      | none => exact ⟨h, rfl⟩
      | some sk =>
          by_cases hr : (sk.ready == ReadyState.closed) = true
          · simp only [hr, if_true]
            exact ⟨h, rfl⟩
          · simp only [Bool.not_eq_true] at hr
            simp only [hr, Bool.false_eq_true, if_false]
            by_cases hatt : sk.attached = true
            · simp only [hatt, if_true, onError]
              exact ⟨h, by rw [h]; rfl⟩
            · simp only [Bool.not_eq_true] at hatt
              simp only [hatt, Bool.false_eq_true, if_false]
              exact ⟨h, rfl⟩
  | sockMessage i m =>
      simp only [step]
      cases hsk : s.socks[i]? with
      | none => exact ⟨h, rfl⟩
      | some sk =>
          by_cases hcond : (sk.ready == ReadyState.opened && sk.attached) = true
          · simp only [hcond, if_true]
            exact onMessage_inv s m h
          · simp only [Bool.not_eq_true] at hcond
            simp only [hcond, Bool.false_eq_true, if_false]
            exact ⟨h, rfl⟩
  | reconnectTimer =>
      simp only [step]
      by_cases hp : (s.pendingReconnects == 0) = true
      · simp only [hp, if_true]
        exact ⟨h, rfl⟩
      · simp only [Bool.not_eq_true] at hp
        simp only [hp, Bool.false_eq_true, if_false]
        obtain ⟨hl, ha⟩ := connect_listeners
          { s with pendingReconnects := s.pendingReconnects - 1 }
        exact ⟨hl.trans h, by rw [ha]; rfl⟩
  | heartbeatTick now =>
      simp only [step]
      by_cases hhb : s.heartbeatTimer = true
      · simp only [hhb, if_true, heartbeatBody]
        cases hso : s.socket with
        | none => exact ⟨h, rfl⟩
        | some i =>
            by_cases hr : (sockReady s i == ReadyState.opened) = true
            · simp only [hr, if_true]
              exact ⟨h, rfl⟩
            · simp only [Bool.not_eq_true] at hr
              simp only [hr, Bool.false_eq_true, if_false]
              exact ⟨h, rfl⟩
      · simp only [Bool.not_eq_true] at hhb
        simp only [hhb, Bool.false_eq_true, if_false]
        exact ⟨h, rfl⟩
  | pongDeadline =>
      simp only [step]
      by_cases hp : s.pongTimeout = true
      · simp only [hp, if_true, pongDeadlineBody]
        cases hso : s.socket with
        | none => exact ⟨h, rfl⟩
        | some i =>
            simp only [closeSock]
            cases hsk : s.socks[i]? with
            | none => exact ⟨h, rfl⟩
            | some sk => exact ⟨h, rfl⟩
      · simp only [Bool.not_eq_true] at hp
        simp only [hp, Bool.false_eq_true, if_false]
        exact ⟨h, rfl⟩

theorem noListeners_run (evs : List Ev) : ∀ s : St, s.listeners = [] →
    (∀ e ∈ evs, isOpOn e = false) →
    (run s evs).1.listeners = [] ∧ (run s evs).2.filter isInvokeAct = [] := by
  induction evs with
  | nil => intro s h _; exact ⟨h, rfl⟩
  | cons e evs ih =>
      intro s h hevs
      obtain ⟨h1, h2⟩ := noListeners_step s e h (hevs e (List.mem_cons_self _ _))
      obtain ⟨h3, h4⟩ := ih _ h1 (fun x hx => hevs x (List.mem_cons_of_mem _ hx))
      refine ⟨h3, ?_⟩
      simp only [run]
      rw [List.filter_append, h2, h4]
      rfl

/-- C10: `forceReconnect()` empties the entire listener registry — the
`close()` half clears every registration and the `open()` half adds none —
so however the new connection then evolves (socket opens, closes, emits,
timers fire), as long as no `on()` re-registration occurs, not a single
callback is invoked: previously registered subscribers, `connection` and
`"*"` subscribers included, receive nothing from the new connection. -/
theorem c10_force_reconnect_clears_listeners (s : St) (evs : List Ev)
    (hevs : ∀ e ∈ evs, isOpOn e = false) :
    (forceReconnect s).1.listeners = [] ∧
    (forceReconnect s).2.filter isInvokeAct = [] ∧
    (run (forceReconnect s).1 evs).1.listeners = [] ∧
    (run (forceReconnect s).1 evs).2.filter isInvokeAct = [] := by
  obtain ⟨hl, ha⟩ := connect_listeners (disconnect s)
  have hempty : (forceReconnect s).1.listeners = [] := hl.trans rfl
  obtain ⟨h3, h4⟩ := noListeners_run evs _ hempty hevs
  refine ⟨hempty, ?_, h3, h4⟩
  rw [show (forceReconnect s).2 = (connect (disconnect s)).2 from rfl, ha]
  rfl

/-- Witness for `c10_force_reconnect_clears_listeners`: a connected service
with `connection` and wildcard subscribers; after `forceReconnect()` the
old socket's close and the new socket's open invoke nobody. -/
theorem c10_force_reconnect_clears_listeners_witness :
    (forceReconnect { initSt with
        listeners := [("connection", [1]), ("*", [2])],
        socket := some 0,
        socks := [{ ready := ReadyState.opened, attached := true }],
        state := WSState.connected }).1.listeners = [] ∧
    (run (forceReconnect { initSt with
            listeners := [("connection", [1]), ("*", [2])],
            socket := some 0,
            socks := [{ ready := ReadyState.opened, attached := true }],
            state := WSState.connected }).1
        [Ev.sockClosed 0 none 3, Ev.sockOpened 1 9]).2.filter isInvokeAct = [] := by
  have h := c10_force_reconnect_clears_listeners
    { initSt with
        listeners := [("connection", [1]), ("*", [2])],
        socket := some 0,
        socks := [{ ready := ReadyState.opened, attached := true }],
        state := WSState.connected }
    [Ev.sockClosed 0 none 3, Ev.sockOpened 1 9]
    (by decide)
  exact ⟨h.1, h.2.2.2⟩

end FLIDS
